import Mathlib

/-!
Verification of the multi-strategy PDF compression core of pdfpress/pdfsmith.

The embedding below mirrors, definition by definition:
  * `src/pdfpress/core/strategies/base.py` — `CompressionResult` and its
    derived `reduction_ratio` / `reduction_percent` properties;
  * `src/pdfsmith/core/compressor.py` — `CompressionOutcome`,
    `PDFCompressor.__init__` and the selection loop of
    `PDFCompressor.compress`;
  * `src/pdfsmith/core/strategies/ghostscript_strategy.py`,
    `pikepdf_strategy.py`, `combined_strategy.py` — the three strategies,
    with the external tool / library calls modelled as oracles describing
    what the external process did (exit status, bytes it wrote);
  * `src/pdfsmith/parallel/executor.py` — `ParallelCompressor.compress_batch`,
    with worker completion order abstracted as an arbitrary permutation of
    the submitted indices.

File contents are modelled as byte lists, the filesystem as a partial map
from paths to contents.  Python `float` arithmetic in the derived ratio
properties is modelled with exact rationals; Python `int(...)` truncation
toward zero is `pyInt`.
-/

/-- `int(x)` in Python: truncation toward zero. -/
def pyInt (q : ℚ) : ℤ := if q < 0 then ⌈q⌉ else ⌊q⌋

/-- `CompressionResult` from `base.py`: result of one strategy on one file. -/
structure CompressionResult where
  success : Bool
  output_path : Option String
  original_size : Nat
  compressed_size : Nat
  strategy_name : String
  error_message : Option String := none
deriving DecidableEq, Repr

/-- `CompressionResult.reduction_ratio`: `0.0` if `original_size == 0`,
else `1.0 - compressed_size / original_size`. -/
def CompressionResult.reduction_ratio (r : CompressionResult) : ℚ :=
  if r.original_size = 0 then 0
  else 1 - (r.compressed_size : ℚ) / (r.original_size : ℚ)

/-- `CompressionResult.reduction_percent`: `int(self.reduction_ratio * 100)`. -/
def CompressionResult.reduction_percent (r : CompressionResult) : ℤ :=
  pyInt (r.reduction_ratio * 100)

/-- `CompressionOutcome` from `compressor.py`: final result for one input. -/
structure CompressionOutcome where
  input_path : String
  output_path : String
  original_size : Nat
  final_size : Nat
  best_strategy : String
  all_results : List CompressionResult
deriving DecidableEq, Repr

/-- `CompressionOutcome.reduction_percent`:
`0` if `original_size == 0`, else `int((1.0 - final_size / original_size) * 100)`. -/
def CompressionOutcome.reduction_percent (o : CompressionOutcome) : ℤ :=
  if o.original_size = 0 then 0
  else pyInt ((1 - (o.final_size : ℚ) / (o.original_size : ℚ)) * 100)

/-- `CompressionOutcome.improved`: `final_size < original_size`. -/
def CompressionOutcome.improved (o : CompressionOutcome) : Bool :=
  o.final_size < o.original_size

/-- C9: for every `CompressionResult`, `reduction_ratio` is
`1 - compressed/original` (and `0` when `original_size = 0`); whenever
`compressed_size ≤ original_size` it lies in `[0, 1]` and
`reduction_percent` is the floor (truncation) of `100 × reduction_ratio`. -/
theorem reduction_ratio_percent_spec (r : CompressionResult) :
    (r.original_size = 0 → r.reduction_ratio = 0) ∧
    (r.original_size ≠ 0 →
      r.reduction_ratio = 1 - (r.compressed_size : ℚ) / (r.original_size : ℚ)) ∧
    (r.compressed_size ≤ r.original_size →
      0 ≤ r.reduction_ratio ∧ r.reduction_ratio ≤ 1 ∧
      r.reduction_percent = ⌊(100 : ℚ) * r.reduction_ratio⌋) := by
  refine ⟨fun h0 => by simp [CompressionResult.reduction_ratio, h0],
          fun h0 => by simp [CompressionResult.reduction_ratio, h0],
          fun hle => ?_⟩
  have hratio : 0 ≤ r.reduction_ratio ∧ r.reduction_ratio ≤ 1 := by
    by_cases h0 : r.original_size = 0
    · simp [CompressionResult.reduction_ratio, h0]
    · have hopos : (0 : ℚ) < (r.original_size : ℚ) := by
        exact_mod_cast Nat.pos_of_ne_zero h0
      have hdiv1 : (r.compressed_size : ℚ) / (r.original_size : ℚ) ≤ 1 := by
        rw [div_le_one hopos]
        exact_mod_cast hle
      have hdiv0 : 0 ≤ (r.compressed_size : ℚ) / (r.original_size : ℚ) :=
        div_nonneg (by positivity) (le_of_lt hopos)
      constructor
      · simp only [CompressionResult.reduction_ratio, if_neg h0]
        linarith
      · simp only [CompressionResult.reduction_ratio, if_neg h0]
        linarith
  refine ⟨hratio.1, hratio.2, ?_⟩
  have hnonneg : 0 ≤ r.reduction_ratio * 100 := by
    have := hratio.1
    positivity
  simp only [CompressionResult.reduction_percent, pyInt, if_neg (not_lt.mpr hnonneg)]
  rw [mul_comm]

/-- Witness for C9 at a concrete result (original 100 bytes, compressed 25):
ratio is 3/4 and the percent is 75. -/
theorem reduction_ratio_percent_spec_witness :
    (0 : ℚ) ≤ CompressionResult.reduction_ratio
        ⟨true, some "out.pdf", 100, 25, "pikepdf", none⟩ ∧
    CompressionResult.reduction_ratio
        ⟨true, some "out.pdf", 100, 25, "pikepdf", none⟩ ≤ 1 ∧
    CompressionResult.reduction_percent
        ⟨true, some "out.pdf", 100, 25, "pikepdf", none⟩ =
      ⌊(100 : ℚ) * CompressionResult.reduction_ratio
        ⟨true, some "out.pdf", 100, 25, "pikepdf", none⟩⌋ :=
  (reduction_ratio_percent_spec ⟨true, some "out.pdf", 100, 25, "pikepdf", none⟩).2.2
    (by norm_num)

/-!
## Orchestrator selection (`PDFCompressor.compress`, `compressor.py`)

The selection loop is, verbatim from the source:

    best_result = None
    best_size = original_size
    for result in results:
        if result.success and result.compressed_size < best_size:
            best_result = result
            best_size = result.compressed_size
-/

/-- The selection loop of `PDFCompressor.compress`: fold over the strategy
results, starting from `(None, original_size)`, replacing the current best
only on a strictly smaller successful size. -/
def findBest (results : List CompressionResult) (original_size : Nat) :
    Option CompressionResult × Nat :=
  results.foldl
    (fun acc r =>
      if r.success = true ∧ r.compressed_size < acc.2 then (some r, r.compressed_size)
      else acc)
    (none, original_size)

/-- Recursive restatement of the same loop, convenient for induction:
the selected result for a given size bound. -/
def selectRec : Nat → List CompressionResult → Option CompressionResult
  | _, [] => none
  | bound, r :: rs =>
    if r.success = true ∧ r.compressed_size < bound then
      match selectRec r.compressed_size rs with
      | some b => some b
      | none => some r
    else selectRec bound rs

theorem foldl_select_eq_selectRec (l : List CompressionResult) :
    ∀ (best : Option CompressionResult) (bound : Nat),
      l.foldl
        (fun acc r =>
          if r.success = true ∧ r.compressed_size < acc.2 then (some r, r.compressed_size)
          else acc)
        (best, bound) =
      (match selectRec bound l with
       | some b => (some b, b.compressed_size)
       | none => (best, bound)) := by
  induction l with
  | nil => intro best bound; simp [selectRec]
  | cons r rs ih =>
    intro best bound
    by_cases h : r.success = true ∧ r.compressed_size < bound
    · simp only [List.foldl_cons, if_pos h, selectRec, ih]
      cases selectRec r.compressed_size rs <;> simp
    · simp only [List.foldl_cons, if_neg h, selectRec, ih]

/-- Characterization of `selectRec`: it returns the earliest successful
result whose size is strictly below the bound and minimal among all such. -/
theorem selectRec_characterize (l : List CompressionResult) :
    ∀ bound : Nat,
      (selectRec bound l = none →
        ∀ r ∈ l, ¬(r.success = true ∧ r.compressed_size < bound)) ∧
      (∀ b, selectRec bound l = some b →
        b.success = true ∧ b.compressed_size < bound ∧
        (∀ r ∈ l, r.success = true → r.compressed_size < bound →
          b.compressed_size ≤ r.compressed_size) ∧
        ∃ pre post, l = pre ++ b :: post ∧
          ∀ r ∈ pre, r.success = true → r.compressed_size < bound →
            b.compressed_size < r.compressed_size) := by
  induction l with
  | nil =>
    intro bound
    refine ⟨fun _ r hr => absurd hr (List.not_mem_nil r),
            fun b hb => absurd hb (by simp [selectRec])⟩
  | cons r rs ih =>
    intro bound
    by_cases h : r.success = true ∧ r.compressed_size < bound
    · constructor
      · intro hnone
        exfalso
        simp only [selectRec, if_pos h] at hnone
        cases hrec : selectRec r.compressed_size rs <;> simp [hrec] at hnone
      · intro b hb
        simp only [selectRec, if_pos h] at hb
        cases hrec : selectRec r.compressed_size rs with
        | none =>
          rw [hrec] at hb
          simp only [Option.some.injEq] at hb
          subst hb
          refine ⟨h.1, h.2, ?_, [], rs, rfl, by simp⟩
          intro s hs hsucc hsize
          rcases List.mem_cons.mp hs with heq | hmem
          · rw [heq]
          · by_contra hlt
            push_neg at hlt
            exact ((ih r.compressed_size).1 hrec s hmem) ⟨hsucc, hlt⟩
        | some c =>
          rw [hrec] at hb
          simp only [Option.some.injEq] at hb
          obtain ⟨hcsucc, hcsize, hcmin, pre, post, hsplit, hpre⟩ :=
            (ih r.compressed_size).2 c hrec
          subst hb
          refine ⟨hcsucc, lt_trans hcsize h.2, ?_, r :: pre, post, by simp [hsplit], ?_⟩
          · intro s hs hsucc hsize
            rcases List.mem_cons.mp hs with heq | hmem
            · rw [heq]; exact le_of_lt hcsize
            · by_cases hsmall : s.compressed_size < r.compressed_size
              · exact hcmin s hmem hsucc hsmall
              · push_neg at hsmall
                exact le_trans (le_of_lt hcsize) hsmall
          · intro s hs hsucc hsize
            rcases List.mem_cons.mp hs with heq | hmem
            · rw [heq]; exact hcsize
            · by_cases hsmall : s.compressed_size < r.compressed_size
              · exact hpre s hmem hsucc hsmall
              · push_neg at hsmall
                exact lt_of_lt_of_le hcsize hsmall
    · constructor
      · intro hnone s hs
        simp only [selectRec, if_neg h] at hnone
        rcases List.mem_cons.mp hs with heq | hmem
        · rw [heq]; exact h
        · exact (ih bound).1 hnone s hmem
      · intro b hb
        simp only [selectRec, if_neg h] at hb
        obtain ⟨hbsucc, hbsize, hbmin, pre, post, hsplit, hpre⟩ := (ih bound).2 b hb
        refine ⟨hbsucc, hbsize, ?_, r :: pre, post, by simp [hsplit], ?_⟩
        · intro s hs hsucc hsize
          rcases List.mem_cons.mp hs with heq | hmem
          · exact absurd ⟨heq ▸ hsucc, heq ▸ hsize⟩ h
          · exact hbmin s hmem hsucc hsize
        · intro s hs hsucc hsize
          rcases List.mem_cons.mp hs with heq | hmem
          · exact absurd ⟨heq ▸ hsucc, heq ▸ hsize⟩ h
          · exact hpre s hmem hsucc hsize

theorem findBest_fst_eq_selectRec (results : List CompressionResult) (original_size : Nat) :
    (findBest results original_size).1 = selectRec original_size results := by
  rw [findBest, foldl_select_eq_selectRec]
  cases selectRec original_size results <;> simp

/-- Strategy result of size 900 for the deterministic-selection example. -/
def resS1 : CompressionResult := ⟨true, some "s1.pdf", 1000, 900, "s1", none⟩

/-- Strategy result of size 700, registered second. -/
def resS2 : CompressionResult := ⟨true, some "s2.pdf", 1000, 700, "s2", none⟩

/-- Strategy result of size 700, registered third (ties with `resS2`). -/
def resS3 : CompressionResult := ⟨true, some "s3.pdf", 1000, 700, "s3", none⟩

/-- C1: the orchestrator's selection loop picks, among successful results
strictly smaller than the original, the strictly smallest; ties go to the
earliest-registered strategy (every earlier successful improving result is
strictly larger), a winner exists whenever some successful improving result
exists, and on sizes [900, 700, 700] against a 1000-byte original the
second result wins, not the third. -/
theorem orchestrator_selects_first_strict_minimum :
    (∀ (original : Nat) (results : List CompressionResult) (b : CompressionResult),
      (findBest results original).1 = some b →
        b.success = true ∧ b.compressed_size < original ∧
        (∀ r ∈ results, r.success = true → r.compressed_size < original →
          b.compressed_size ≤ r.compressed_size) ∧
        ∃ pre post, results = pre ++ b :: post ∧
          ∀ r ∈ pre, r.success = true → r.compressed_size < original →
            b.compressed_size < r.compressed_size) ∧
    (∀ (original : Nat) (results : List CompressionResult),
      (∃ r ∈ results, r.success = true ∧ r.compressed_size < original) →
        (findBest results original).1.isSome = true) ∧
    (findBest [resS1, resS2, resS3] 1000).1 = some resS2 := by
  refine ⟨?_, ?_, by decide⟩
  · intro original results b hb
    rw [findBest_fst_eq_selectRec] at hb
    exact (selectRec_characterize results original).2 b hb
  · intro original results ⟨r, hr, hsucc, hsize⟩
    rw [findBest_fst_eq_selectRec]
    cases hsel : selectRec original results with
    | none => exact absurd ⟨hsucc, hsize⟩ ((selectRec_characterize results original).1 hsel r hr)
    | some b => rfl

/-- Witness for C1: applying the selection theorem to the concrete
[900, 700, 700] example shows the winner `resS2` is successful, improves on
1000, and is minimal among the three results. -/
theorem orchestrator_selects_first_strict_minimum_witness :
    resS2.success = true ∧ resS2.compressed_size < 1000 ∧
    (∀ r ∈ [resS1, resS2, resS3], r.success = true → r.compressed_size < 1000 →
      resS2.compressed_size ≤ r.compressed_size) ∧
    ∃ pre post, [resS1, resS2, resS3] = pre ++ resS2 :: post ∧
      ∀ r ∈ pre, r.success = true → r.compressed_size < 1000 →
        resS2.compressed_size < r.compressed_size :=
  orchestrator_selects_first_strict_minimum.1 1000 [resS1, resS2, resS3] resS2 (by decide)

/-!
## The orchestrator with file contents

`PDFCompressor.compress` runs each strategy into its own temporary slot,
scans the results with the selection loop above, then either copies the
winner's temporary file to `output_path` (`shutil.copy2`) or copies the
original input unchanged.  We carry each strategy's result together with
the bytes it left in its temporary slot, and return the outcome together
with the bytes copied to `output_path`.
-/

/-- The selection loop of `PDFCompressor.compress`, run over results paired
with the bytes sitting in the corresponding temporary slot (the pairing
stands for the temporary file the winning result's `output_path` points at). -/
def findBestRun (runs : List (CompressionResult × List Nat)) (original_size : Nat) :
    Option (CompressionResult × List Nat) × Nat :=
  runs.foldl
    (fun acc x =>
      if x.1.success = true ∧ x.1.compressed_size < acc.2 then (some x, x.1.compressed_size)
      else acc)
    (none, original_size)

/-- `PDFCompressor.compress`: given the input file's bytes and each
strategy's (result, temporary-slot bytes), produce the `CompressionOutcome`
and the bytes copied to the destination.  `original_size` is read from the
input file (`input_path.stat().st_size`). -/
def PDFCompressor.compress (input_path output_path : String) (input : List Nat)
    (runs : List (CompressionResult × List Nat)) : CompressionOutcome × List Nat :=
  let original_size := input.length
  let best := findBestRun runs original_size
  match best.1 with
  | some bestRun =>
    if bestRun.1.output_path.isSome then
      ({ input_path := input_path, output_path := output_path,
         original_size := original_size, final_size := best.2,
         best_strategy := bestRun.1.strategy_name,
         all_results := runs.map Prod.fst }, bestRun.2)
    else
      ({ input_path := input_path, output_path := output_path,
         original_size := original_size, final_size := original_size,
         best_strategy := "none",
         all_results := runs.map Prod.fst }, input)
  | none =>
    ({ input_path := input_path, output_path := output_path,
       original_size := original_size, final_size := original_size,
       best_strategy := "none",
       all_results := runs.map Prod.fst }, input)

theorem findBestRun_of_no_improvement (runs : List (CompressionResult × List Nat)) :
    ∀ bound : Nat,
      (∀ x ∈ runs, ¬(x.1.success = true ∧ x.1.compressed_size < bound)) →
      findBestRun runs bound = (none, bound) := by
  have general :
      ∀ (l : List (CompressionResult × List Nat))
        (acc : Option (CompressionResult × List Nat) × Nat),
        (∀ x ∈ l, ¬(x.1.success = true ∧ x.1.compressed_size < acc.2)) →
        l.foldl
          (fun acc x =>
            if x.1.success = true ∧ x.1.compressed_size < acc.2 then (some x, x.1.compressed_size)
            else acc)
          acc = acc := by
    intro l
    induction l with
    | nil => intro acc _; rfl
    | cons x xs ih =>
      intro acc hnone
      have hx : ¬(x.1.success = true ∧ x.1.compressed_size < acc.2) :=
        hnone x (List.mem_cons_self x xs)
      simp only [List.foldl_cons, if_neg hx]
      exact ih acc (fun y hy => hnone y (List.mem_cons_of_mem x hy))
  intro bound h
  exact general runs (none, bound) h

theorem findBestRun_size_le (runs : List (CompressionResult × List Nat)) :
    ∀ bound : Nat, (findBestRun runs bound).2 ≤ bound := by
  have general :
      ∀ (l : List (CompressionResult × List Nat))
        (acc : Option (CompressionResult × List Nat) × Nat),
        (l.foldl
          (fun acc x =>
            if x.1.success = true ∧ x.1.compressed_size < acc.2 then (some x, x.1.compressed_size)
            else acc)
          acc).2 ≤ acc.2 := by
    intro l
    induction l with
    | nil => intro acc; exact le_refl _
    | cons x xs ih =>
      intro acc
      by_cases hx : x.1.success = true ∧ x.1.compressed_size < acc.2
      · simp only [List.foldl_cons, if_pos hx]
        exact le_trans (ih (some x, x.1.compressed_size)) (le_of_lt hx.2)
      · simp only [List.foldl_cons, if_neg hx]
        exact ih acc
  intro bound
  exact general runs (none, bound)

/-- C3: when no strategy produces a successful result strictly smaller
than the original, the orchestrator records winner `"none"`, reports
`final_size = original_size`, and writes the input's bytes unchanged to
the destination (byte-identical copy of the original). -/
theorem orchestrator_no_improvement_copies_original
    (input_path output_path : String) (input : List Nat)
    (runs : List (CompressionResult × List Nat))
    (h : ∀ x ∈ runs, ¬(x.1.success = true ∧ x.1.compressed_size < input.length)) :
    (PDFCompressor.compress input_path output_path input runs).1.best_strategy = "none" ∧
    (PDFCompressor.compress input_path output_path input runs).1.final_size =
      (PDFCompressor.compress input_path output_path input runs).1.original_size ∧
    (PDFCompressor.compress input_path output_path input runs).2 = input := by
  have hfind : findBestRun runs input.length = (none, input.length) :=
    findBestRun_of_no_improvement runs input.length h
  simp [PDFCompressor.compress, hfind]

/-- Witness for C3: two failing strategy runs and one successful run that
does not improve on a 3-byte original leave the original bytes in place
with winner `"none"`. -/
theorem orchestrator_no_improvement_copies_original_witness :
    (PDFCompressor.compress "in.pdf" "out.pdf" [1, 2, 3]
        [(⟨false, none, 3, 0, "pikepdf", some "bad"⟩, []),
         (⟨true, some "s1.pdf", 3, 5, "ghostscript(screen)", none⟩, [7, 7, 7, 7, 7])]).1.best_strategy
      = "none" ∧
    (PDFCompressor.compress "in.pdf" "out.pdf" [1, 2, 3]
        [(⟨false, none, 3, 0, "pikepdf", some "bad"⟩, []),
         (⟨true, some "s1.pdf", 3, 5, "ghostscript(screen)", none⟩, [7, 7, 7, 7, 7])]).1.final_size
      = (PDFCompressor.compress "in.pdf" "out.pdf" [1, 2, 3]
        [(⟨false, none, 3, 0, "pikepdf", some "bad"⟩, []),
         (⟨true, some "s1.pdf", 3, 5, "ghostscript(screen)", none⟩, [7, 7, 7, 7, 7])]).1.original_size ∧
    (PDFCompressor.compress "in.pdf" "out.pdf" [1, 2, 3]
        [(⟨false, none, 3, 0, "pikepdf", some "bad"⟩, []),
         (⟨true, some "s1.pdf", 3, 5, "ghostscript(screen)", none⟩, [7, 7, 7, 7, 7])]).2
      = [1, 2, 3] :=
  orchestrator_no_improvement_copies_original "in.pdf" "out.pdf" [1, 2, 3]
    [(⟨false, none, 3, 0, "pikepdf", some "bad"⟩, []),
     (⟨true, some "s1.pdf", 3, 5, "ghostscript(screen)", none⟩, [7, 7, 7, 7, 7])]
    (by decide)

/-- C10: every outcome the orchestrator returns has
`final_size ≤ original_size` (the best size starts at the original and only
ever strictly decreases), and `improved` holds exactly when
`final_size < original_size`. -/
theorem outcome_final_size_le_original
    (input_path output_path : String) (input : List Nat)
    (runs : List (CompressionResult × List Nat)) :
    (PDFCompressor.compress input_path output_path input runs).1.final_size ≤
      (PDFCompressor.compress input_path output_path input runs).1.original_size ∧
    ((PDFCompressor.compress input_path output_path input runs).1.improved = true ↔
      (PDFCompressor.compress input_path output_path input runs).1.final_size <
        (PDFCompressor.compress input_path output_path input runs).1.original_size) := by
  constructor
  · have hle := findBestRun_size_le runs input.length
    unfold PDFCompressor.compress
    cases hbest : (findBestRun runs input.length).1 with
    | none => simp [hbest]
    | some bestRun =>
      by_cases hout : bestRun.1.output_path.isSome
      · simp only [hbest, hout, if_pos]
        exact hle
      · simp [hbest, hout]
  · simp [CompressionOutcome.improved]

/-!
## Strategy construction (`GhostscriptStrategy.__init__`, `PDFCompressor.__init__`)

`GhostscriptStrategy._find_ghostscript` searches the system path for the
binary names `gs`, `gswin64c`, `gswin32c` and raises `RuntimeError` when
none is found.  `PDFCompressor.__init__` builds
`[PikepdfStrategy(), GhostscriptStrategy(), CombinedStrategy()]` with no
exception handling; `CombinedStrategy.__init__` itself constructs another
`GhostscriptStrategy()`.  Raised exceptions are modelled with `Except`,
the system path lookup `shutil.which` with a predicate on binary names.
-/

/-- The `RuntimeError` message of `_find_ghostscript`. -/
def gsNotFoundMsg : String :=
  "Ghostscript not found. Install with: brew install ghostscript (macOS) or apt install ghostscript (Linux)"

/-- `GhostscriptStrategy._find_ghostscript`: first hit among
`gs`, `gswin64c`, `gswin32c` on the path, else `RuntimeError`. -/
def findGhostscript (which : String → Bool) : Except String String :=
  if which "gs" then Except.ok "gs"
  else if which "gswin64c" then Except.ok "gswin64c"
  else if which "gswin32c" then Except.ok "gswin32c"
  else Except.error gsNotFoundMsg

/-- `GhostscriptStrategy.__init__`: use the explicit `gs_path` when given,
otherwise resolve via `_find_ghostscript` (which may raise). -/
def GhostscriptStrategy.construct (gs_path : Option String) (which : String → Bool) :
    Except String String :=
  match gs_path with
  | some p => Except.ok p
  | none => findGhostscript which

/-- Tags for the three constructed strategy objects, recording the resolved
tool path where one is held. -/
inductive StrategyTag where
  | pikepdf : StrategyTag
  | ghostscript (gsPath : String) : StrategyTag
  | combined (gsPath : String) : StrategyTag
deriving DecidableEq, Repr

/-- `CombinedStrategy.__init__`: constructs its own `GhostscriptStrategy()`
(and a `PikepdfStrategy()`, which cannot fail). -/
def CombinedStrategy.construct (which : String → Bool) : Except String String :=
  GhostscriptStrategy.construct none which

/-- `PDFCompressor.__init__`: builds the strategy list
`[PikepdfStrategy(), GhostscriptStrategy(), CombinedStrategy()]`; any
`RuntimeError` from a strategy constructor propagates uncaught. -/
def PDFCompressor.construct (which : String → Bool) : Except String (List StrategyTag) := do
  let g ← GhostscriptStrategy.construct none which
  let c ← CombinedStrategy.construct which
  pure [StrategyTag.pikepdf, StrategyTag.ghostscript g, StrategyTag.combined c]

/-- Counterexample to C4: with the tool absent from the system path,
constructing the orchestrator itself raises (`Except.error`), so no
strategy list exists and the other registered strategies are never run —
contradicting the claim that the failure stays confined to the one
strategy instance. -/
theorem gs_missing_orchestrator_construction_fails_ce :
    PDFCompressor.construct (fun _ => false) = Except.error gsNotFoundMsg ∧
    ¬∃ strategies, PDFCompressor.construct (fun _ => false) = Except.ok strategies := by
  refine ⟨rfl, ?_⟩
  rintro ⟨strategies, h⟩
  rw [show PDFCompressor.construct (fun _ => false) = Except.error gsNotFoundMsg from rfl] at h
  exact absurd h (by simp)

/-- C4 amended: when the external tool cannot be located, the failure is
raised at `GhostscriptStrategy` construction time, and because
`PDFCompressor.__init__` constructs its strategies without catching it,
orchestrator construction fails with that same error and no strategies
(structural optimization included) are run; when the tool is present the
orchestrator is built with all three strategies. -/
theorem gs_missing_propagates_from_orchestrator_construction (which : String → Bool)
    (habsent : which "gs" = false ∧ which "gswin64c" = false ∧ which "gswin32c" = false) :
    GhostscriptStrategy.construct none which = Except.error gsNotFoundMsg ∧
    PDFCompressor.construct which = Except.error gsNotFoundMsg := by
  obtain ⟨h1, h2, h3⟩ := habsent
  have hfind : findGhostscript which = Except.error gsNotFoundMsg := by
    simp [findGhostscript, h1, h2, h3]
  have hgs : GhostscriptStrategy.construct none which = Except.error gsNotFoundMsg := hfind
  refine ⟨hgs, ?_⟩
  unfold PDFCompressor.construct
  rw [hgs]
  rfl

/-- Witness for the amended C4 on the empty system path. -/
theorem gs_missing_propagates_from_orchestrator_construction_witness :
    GhostscriptStrategy.construct none (fun _ => false) = Except.error gsNotFoundMsg ∧
    PDFCompressor.construct (fun _ => false) = Except.error gsNotFoundMsg :=
  gs_missing_propagates_from_orchestrator_construction (fun _ => false) ⟨rfl, rfl, rfl⟩

/-!
## Strategies over a modelled filesystem

A filesystem maps paths to optional byte contents.  The external tool
(Ghostscript subprocess) and the document library (pikepdf) are oracles
describing what the external call did: whether it succeeded, what
diagnostic it produced, and which bytes (if any) it left at the output
path before returning.  The strategy code itself never removes files; the
only filesystem changes are the oracle's own writes.
-/

/-- Paths to optional byte contents. -/
def FileSystem : Type := String → Option (List Nat)

/-- Point update of a filesystem. -/
def fsUpdate (fs : FileSystem) (p : String) (v : Option (List Nat)) : FileSystem :=
  fun q => if q = p then v else fs q

/-- `CompressionStrategy._get_file_size`:
`path.stat().st_size if path.exists() else 0`. -/
def getFileSize (fs : FileSystem) (p : String) : Nat :=
  match fs p with
  | some c => c.length
  | none => 0

/-- Behaviour of one `subprocess.run` of the Ghostscript command: exit 0
with the bytes written at the output path, or `CalledProcessError` /
`TimeoutExpired` / any other exception, each possibly after the tool
already wrote (partial) bytes at the output path. -/
inductive GsRun where
  | exitZero (written : List Nat) : GsRun
  | calledProcessError (stderr : Option String) (written : Option (List Nat)) : GsRun
  | timeoutExpired (written : Option (List Nat)) : GsRun
  | otherError (msg : String) (written : Option (List Nat)) : GsRun
deriving DecidableEq, Repr

/-- Whether the subprocess run failed (raised out of `subprocess.run`). -/
def GsRun.isFailure : GsRun → Bool
  | .exitZero _ => false
  | _ => true

/-- Bytes the failing tool left at the output path (`none` on success runs
and when a failing run wrote nothing). -/
def GsRun.writtenOnFailure : GsRun → Option (List Nat)
  | .exitZero _ => none
  | .calledProcessError _ w => w
  | .timeoutExpired w => w
  | .otherError _ w => w

/-- Apply the bytes a failing external call left behind (no write when it
left nothing). -/
def applyToolWrite (fs : FileSystem) (output_path : String) (w : Option (List Nat)) :
    FileSystem :=
  match w with
  | some c => fsUpdate fs output_path (some c)
  | none => fs

/-- `GhostscriptStrategy.compress`: reads the original size, runs the tool
subprocess, and maps each outcome to a `CompressionResult`; returns the
result together with the filesystem after the call.  The except-branches
return a failed result without touching the filesystem. -/
def GhostscriptStrategy.compress (fs : FileSystem) (input_path output_path quality : String)
    (run : GsRun) : CompressionResult × FileSystem :=
  let original_size := getFileSize fs input_path
  match run with
  | .exitZero w =>
    let fs' := fsUpdate fs output_path (some w)
    (⟨true, some output_path, original_size, getFileSize fs' output_path,
      "ghostscript(" ++ quality ++ ")", none⟩, fs')
  | .calledProcessError stderr w =>
    (⟨false, none, original_size, 0, "ghostscript",
      some ("Ghostscript error: " ++ stderr.getD "CalledProcessError")⟩,
     applyToolWrite fs output_path w)
  | .timeoutExpired w =>
    (⟨false, none, original_size, 0, "ghostscript",
      some "Ghostscript timeout exceeded (5 minutes)"⟩,
     applyToolWrite fs output_path w)
  | .otherError msg w =>
    (⟨false, none, original_size, 0, "ghostscript", some msg⟩,
     applyToolWrite fs output_path w)

/-- Behaviour of one `pikepdf.open(...)`/`pdf.save(...)` call: saved bytes
at the output path, or an exception, possibly after a partial write. -/
inductive PikeRun where
  | saved (written : List Nat) : PikeRun
  | raised (msg : String) (written : Option (List Nat)) : PikeRun
deriving DecidableEq, Repr

/-- `PikepdfStrategy.compress`: open and re-serialize via the document
library; any exception becomes a failed result with the underlying
message. -/
def PikepdfStrategy.compress (fs : FileSystem) (input_path output_path quality : String)
    (run : PikeRun) : CompressionResult × FileSystem :=
  let original_size := getFileSize fs input_path
  match run with
  | .saved w =>
    let fs' := fsUpdate fs output_path (some w)
    (⟨true, some output_path, original_size, getFileSize fs' output_path,
      "pikepdf", none⟩, fs')
  | .raised msg w =>
    (⟨false, none, original_size, 0, "pikepdf", some msg⟩,
     applyToolWrite fs output_path w)

/-- `CombinedStrategy.compress`: stage 1 (Ghostscript) into an
intermediate file inside a temporary directory, then stage 2 (pikepdf)
from the intermediate to the output; short-circuit on a stage-1 failure.
The third component records whether stage 2 was invoked; the temporary
intermediate file is removed on every exit path (`TemporaryDirectory`). -/
def CombinedStrategy.compress (fs : FileSystem)
    (input_path output_path quality intermediate_path : String)
    (gsRun : GsRun) (pikeRun : PikeRun) :
    CompressionResult × FileSystem × Bool :=
  let original_size := getFileSize fs input_path
  let gsOut := GhostscriptStrategy.compress fs input_path intermediate_path quality gsRun
  if gsOut.1.success = true then
    let pikeOut := PikepdfStrategy.compress gsOut.2 intermediate_path output_path quality pikeRun
    if pikeOut.1.success = true then
      (⟨true, some output_path, original_size, pikeOut.1.compressed_size,
        "combined(" ++ quality ++ ")", none⟩,
       fsUpdate pikeOut.2 intermediate_path none, true)
    else
      (⟨false, none, original_size, 0, "combined",
        some ("Pikepdf stage failed: " ++ pikeOut.1.error_message.getD "None")⟩,
       fsUpdate pikeOut.2 intermediate_path none, true)
  else
    (⟨false, none, original_size, 0, "combined",
      some ("Ghostscript stage failed: " ++ gsOut.1.error_message.getD "None")⟩,
     fsUpdate gsOut.2 intermediate_path none, false)

/-- Whether the pikepdf call raised. -/
def PikeRun.isFailure : PikeRun → Bool
  | .saved _ => false
  | .raised _ _ => true

/-- Bytes a raising pikepdf call left at the output path (`none` on
successful saves and when the raising call wrote nothing). -/
def PikeRun.writtenOnFailure : PikeRun → Option (List Nat)
  | .saved _ => none
  | .raised _ w => w

theorem gs_compress_success_iff (fs : FileSystem) (input_path output_path quality : String)
    (run : GsRun) :
    (GhostscriptStrategy.compress fs input_path output_path quality run).1.success
      = !run.isFailure := by
  cases run <;> rfl

theorem stage_error_messages_disjoint (s t : String) :
    "Ghostscript stage failed: " ++ s ≠ "Pikepdf stage failed: " ++ t := by
  intro h
  have h2 := congrArg String.data h
  simp [String.data_append] at h2

/-- C6: if stage 1 of the composed strategy fails, stage 2 is never
invoked (the invocation flag is `false` and the output is independent of
the pikepdf oracle) and the failed result's message carries the stage-1
distinguishing text; a stage-2 failure symmetrically carries the stage-2
text; the two message forms can never coincide. -/
theorem combined_short_circuit_stage_messages
    (fs : FileSystem) (input_path output_path quality intermediate_path : String)
    (gsRun : GsRun) (pikeRun : PikeRun) :
    (gsRun.isFailure = true →
      (CombinedStrategy.compress fs input_path output_path quality intermediate_path
        gsRun pikeRun).2.2 = false ∧
      (CombinedStrategy.compress fs input_path output_path quality intermediate_path
        gsRun pikeRun).1.success = false ∧
      (∃ s, (CombinedStrategy.compress fs input_path output_path quality intermediate_path
        gsRun pikeRun).1.error_message = some ("Ghostscript stage failed: " ++ s)) ∧
      (∀ pikeRun', CombinedStrategy.compress fs input_path output_path quality intermediate_path
        gsRun pikeRun' =
        CombinedStrategy.compress fs input_path output_path quality intermediate_path
        gsRun pikeRun)) ∧
    (gsRun.isFailure = false → pikeRun.isFailure = true →
      (CombinedStrategy.compress fs input_path output_path quality intermediate_path
        gsRun pikeRun).2.2 = true ∧
      (CombinedStrategy.compress fs input_path output_path quality intermediate_path
        gsRun pikeRun).1.success = false ∧
      (∃ s, (CombinedStrategy.compress fs input_path output_path quality intermediate_path
        gsRun pikeRun).1.error_message = some ("Pikepdf stage failed: " ++ s))) ∧
    (∀ s t, ("Ghostscript stage failed: " ++ s : String) ≠ "Pikepdf stage failed: " ++ t) := by
  refine ⟨?_, ?_, stage_error_messages_disjoint⟩
  · intro hfail
    cases gsRun with
    | exitZero w => simp [GsRun.isFailure] at hfail
    | calledProcessError st w =>
      refine ⟨rfl, rfl, ⟨_, rfl⟩, ?_⟩
      intro pikeRun'
      rfl
    | timeoutExpired w =>
      refine ⟨rfl, rfl, ⟨_, rfl⟩, ?_⟩
      intro pikeRun'
      rfl
    | otherError msg w =>
      refine ⟨rfl, rfl, ⟨_, rfl⟩, ?_⟩
      intro pikeRun'
      rfl
  · intro hok hfail
    cases gsRun with
    | exitZero w =>
      cases pikeRun with
      | saved w' => simp [PikeRun.isFailure] at hfail
      | raised msg w' => exact ⟨rfl, rfl, _, rfl⟩
    | calledProcessError st w => simp [GsRun.isFailure] at hok
    | timeoutExpired w => simp [GsRun.isFailure] at hok
    | otherError msg w => simp [GsRun.isFailure] at hok

/-- Witness for C6: a timed-out stage 1 with a raising pikepdf oracle never
reaches stage 2 and reports a stage-1-tagged failure. -/
theorem combined_short_circuit_stage_messages_witness :
    (CombinedStrategy.compress (fun _ => none) "in.pdf" "out.pdf" "screen" "gs_output.pdf"
      (GsRun.timeoutExpired none) (PikeRun.raised "boom" none)).2.2 = false ∧
    (CombinedStrategy.compress (fun _ => none) "in.pdf" "out.pdf" "screen" "gs_output.pdf"
      (GsRun.timeoutExpired none) (PikeRun.raised "boom" none)).1.success = false :=
  ⟨((combined_short_circuit_stage_messages (fun _ => none) "in.pdf" "out.pdf" "screen"
      "gs_output.pdf" (GsRun.timeoutExpired none) (PikeRun.raised "boom" none)).1 rfl).1,
   ((combined_short_circuit_stage_messages (fun _ => none) "in.pdf" "out.pdf" "screen"
      "gs_output.pdf" (GsRun.timeoutExpired none) (PikeRun.raised "boom" none)).1 rfl).2.1⟩

/-- Counterexample to C7: a Ghostscript run that times out after the tool
already wrote a byte at the destination yields a failed result while a
file is still present at the caller-visible destination path — the
strategy code performs no cleanup. -/
theorem gs_failure_can_leave_partial_output_ce :
    (GhostscriptStrategy.compress (fun p => if p = "in.pdf" then some [1, 2, 3] else none)
      "in.pdf" "out.pdf" "screen" (GsRun.timeoutExpired (some [9]))).1.success = false ∧
    (GhostscriptStrategy.compress (fun p => if p = "in.pdf" then some [1, 2, 3] else none)
      "in.pdf" "out.pdf" "screen" (GsRun.timeoutExpired (some [9]))).2 "out.pdf" = some [9] ∧
    (GhostscriptStrategy.compress (fun p => if p = "in.pdf" then some [1, 2, 3] else none)
      "in.pdf" "out.pdf" "screen" (GsRun.timeoutExpired (some [9]))).2 "out.pdf" ≠ none := by
  refine ⟨rfl, by decide, by decide⟩

/-- C7 amended: every failing strategy compress call returns a failed
result and performs no cleanup at the caller-visible destination path.
For the ghostscript and pikepdf strategies the destination holds exactly
what the failing external call wrote there (the whole filesystem is
unchanged when it wrote nothing); for the combined strategy — whose two
stages write to a temporary intermediate file and to the destination — a
stage-1 failure leaves the destination untouched, and a stage-2 failure
leaves exactly what the document library wrote at the destination. -/
theorem strategy_failure_no_cleanup_leaves_tool_writes
    (fs : FileSystem) (input_path output_path quality intermediate_path : String)
    (gsRun : GsRun) (pikeRun : PikeRun) :
    (gsRun.isFailure = true →
      (GhostscriptStrategy.compress fs input_path output_path quality gsRun).1.success = false ∧
      (GhostscriptStrategy.compress fs input_path output_path quality gsRun).2 output_path =
        (match gsRun.writtenOnFailure with
         | some w => some w
         | none => fs output_path) ∧
      (gsRun.writtenOnFailure = none →
        (GhostscriptStrategy.compress fs input_path output_path quality gsRun).2 = fs)) ∧
    (pikeRun.isFailure = true →
      (PikepdfStrategy.compress fs input_path output_path quality pikeRun).1.success = false ∧
      (PikepdfStrategy.compress fs input_path output_path quality pikeRun).2 output_path =
        (match pikeRun.writtenOnFailure with
         | some w => some w
         | none => fs output_path) ∧
      (pikeRun.writtenOnFailure = none →
        (PikepdfStrategy.compress fs input_path output_path quality pikeRun).2 = fs)) ∧
    (intermediate_path ≠ output_path →
      (gsRun.isFailure = true →
        (CombinedStrategy.compress fs input_path output_path quality intermediate_path
          gsRun pikeRun).1.success = false ∧
        (CombinedStrategy.compress fs input_path output_path quality intermediate_path
          gsRun pikeRun).2.1 output_path = fs output_path) ∧
      (gsRun.isFailure = false → pikeRun.isFailure = true →
        (CombinedStrategy.compress fs input_path output_path quality intermediate_path
          gsRun pikeRun).1.success = false ∧
        (CombinedStrategy.compress fs input_path output_path quality intermediate_path
          gsRun pikeRun).2.1 output_path =
          (match pikeRun.writtenOnFailure with
           | some w => some w
           | none => fs output_path))) := by
  refine ⟨?_, ?_, ?_⟩
  · intro hfail
    cases gsRun with
    | exitZero w => simp [GsRun.isFailure] at hfail
    | calledProcessError st w =>
      cases w with
      | none => exact ⟨rfl, rfl, fun _ => rfl⟩
      | some c =>
        refine ⟨rfl, ?_, ?_⟩
        · simp [GhostscriptStrategy.compress, GsRun.writtenOnFailure, applyToolWrite, fsUpdate]
        · intro hnone
          simp [GsRun.writtenOnFailure] at hnone
    | timeoutExpired w =>
      cases w with
      | none => exact ⟨rfl, rfl, fun _ => rfl⟩
      | some c =>
        refine ⟨rfl, ?_, ?_⟩
        · simp [GhostscriptStrategy.compress, GsRun.writtenOnFailure, applyToolWrite, fsUpdate]
        · intro hnone
          simp [GsRun.writtenOnFailure] at hnone
    | otherError msg w =>
      cases w with
      | none => exact ⟨rfl, rfl, fun _ => rfl⟩
      | some c =>
        refine ⟨rfl, ?_, ?_⟩
        · simp [GhostscriptStrategy.compress, GsRun.writtenOnFailure, applyToolWrite, fsUpdate]
        · intro hnone
          simp [GsRun.writtenOnFailure] at hnone
  · intro hfail
    cases pikeRun with
    | saved w => simp [PikeRun.isFailure] at hfail
    | raised msg w =>
      cases w with
      | none => exact ⟨rfl, rfl, fun _ => rfl⟩
      | some c =>
        refine ⟨rfl, ?_, ?_⟩
        · simp [PikepdfStrategy.compress, PikeRun.writtenOnFailure, applyToolWrite, fsUpdate]
        · intro hnone
          simp [PikeRun.writtenOnFailure] at hnone
  · intro hneq
    have hne2 : ¬output_path = intermediate_path := fun h => hneq h.symm
    constructor
    · intro hfail
      cases gsRun with
      | exitZero w => simp [GsRun.isFailure] at hfail
      | calledProcessError st w =>
        refine ⟨rfl, ?_⟩
        cases w <;>
          simp [CombinedStrategy.compress, GhostscriptStrategy.compress, applyToolWrite,
            fsUpdate, hne2]
      | timeoutExpired w =>
        refine ⟨rfl, ?_⟩
        cases w <;>
          simp [CombinedStrategy.compress, GhostscriptStrategy.compress, applyToolWrite,
            fsUpdate, hne2]
      | otherError msg w =>
        refine ⟨rfl, ?_⟩
        cases w <;>
          simp [CombinedStrategy.compress, GhostscriptStrategy.compress, applyToolWrite,
            fsUpdate, hne2]
    · intro hok hfail
      cases gsRun with
      | exitZero w =>
        cases pikeRun with
        | saved w' => simp [PikeRun.isFailure] at hfail
        | raised msg w' =>
          refine ⟨rfl, ?_⟩
          cases w' <;>
            simp [CombinedStrategy.compress, GhostscriptStrategy.compress,
              PikepdfStrategy.compress, PikeRun.writtenOnFailure, applyToolWrite,
              fsUpdate, hne2]
      | calledProcessError st w => simp [GsRun.isFailure] at hok
      | timeoutExpired w => simp [GsRun.isFailure] at hok
      | otherError msg w => simp [GsRun.isFailure] at hok

/-- Witness for the amended C7: a raising pikepdf call that wrote two
bytes leaves exactly those bytes at the destination, and a combined run
whose stage 1 exits non-zero leaves the destination untouched. -/
theorem strategy_failure_no_cleanup_leaves_tool_writes_witness :
    ((PikepdfStrategy.compress (fun _ => none) "in.pdf" "out.pdf" "screen"
        (PikeRun.raised "boom" (some [5, 6]))).1.success = false ∧
      (PikepdfStrategy.compress (fun _ => none) "in.pdf" "out.pdf" "screen"
        (PikeRun.raised "boom" (some [5, 6]))).2 "out.pdf" =
        (match (PikeRun.raised "boom" (some [5, 6])).writtenOnFailure with
         | some w => some w
         | none => (fun _ => none : FileSystem) "out.pdf") ∧
      ((PikeRun.raised "boom" (some [5, 6])).writtenOnFailure = none →
        (PikepdfStrategy.compress (fun _ => none) "in.pdf" "out.pdf" "screen"
          (PikeRun.raised "boom" (some [5, 6]))).2 = (fun _ => none : FileSystem))) ∧
    ((CombinedStrategy.compress (fun _ => none) "in.pdf" "out.pdf" "screen" "gs_output.pdf"
        (GsRun.calledProcessError none none) (PikeRun.raised "boom" (some [5, 6]))).1.success
        = false ∧
      (CombinedStrategy.compress (fun _ => none) "in.pdf" "out.pdf" "screen" "gs_output.pdf"
        (GsRun.calledProcessError none none) (PikeRun.raised "boom" (some [5, 6]))).2.1 "out.pdf"
        = (fun _ => none : FileSystem) "out.pdf") :=
  ⟨(strategy_failure_no_cleanup_leaves_tool_writes (fun _ => none) "in.pdf" "out.pdf" "screen"
      "gs_output.pdf" (GsRun.calledProcessError none none)
      (PikeRun.raised "boom" (some [5, 6]))).2.1 rfl,
   ((strategy_failure_no_cleanup_leaves_tool_writes (fun _ => none) "in.pdf" "out.pdf" "screen"
      "gs_output.pdf" (GsRun.calledProcessError none none)
      (PikeRun.raised "boom" (some [5, 6]))).2.2 (by decide)).1 rfl⟩

/-- C8: every result any of the three strategies can produce has
`output_path` set exactly when `success` holds, and `compressed_size = 0`
whenever `success` is false. -/
theorem strategy_result_invariant
    (fs : FileSystem) (input_path output_path quality intermediate_path : String)
    (gsRun : GsRun) (pikeRun : PikeRun) :
    (((GhostscriptStrategy.compress fs input_path output_path quality gsRun).1.output_path.isSome
        = (GhostscriptStrategy.compress fs input_path output_path quality gsRun).1.success) ∧
     ((GhostscriptStrategy.compress fs input_path output_path quality gsRun).1.success = false →
        (GhostscriptStrategy.compress fs input_path output_path quality gsRun).1.compressed_size
          = 0)) ∧
    (((PikepdfStrategy.compress fs input_path output_path quality pikeRun).1.output_path.isSome
        = (PikepdfStrategy.compress fs input_path output_path quality pikeRun).1.success) ∧
     ((PikepdfStrategy.compress fs input_path output_path quality pikeRun).1.success = false →
        (PikepdfStrategy.compress fs input_path output_path quality pikeRun).1.compressed_size
          = 0)) ∧
    (((CombinedStrategy.compress fs input_path output_path quality intermediate_path
          gsRun pikeRun).1.output_path.isSome
        = (CombinedStrategy.compress fs input_path output_path quality intermediate_path
          gsRun pikeRun).1.success) ∧
     ((CombinedStrategy.compress fs input_path output_path quality intermediate_path
          gsRun pikeRun).1.success = false →
        (CombinedStrategy.compress fs input_path output_path quality intermediate_path
          gsRun pikeRun).1.compressed_size = 0)) := by
  refine ⟨?_, ?_, ?_⟩
  · cases gsRun <;> simp [GhostscriptStrategy.compress]
  · cases pikeRun <;> simp [PikepdfStrategy.compress]
  · cases gsRun <;> cases pikeRun <;>
      simp [CombinedStrategy.compress, GhostscriptStrategy.compress, PikepdfStrategy.compress]

/-- Witness for C8 at a failing Ghostscript run: no output path is set and
the compressed size is 0. -/
theorem strategy_result_invariant_witness :
    ((GhostscriptStrategy.compress (fun _ => none) "in.pdf" "out.pdf" "screen"
        (GsRun.timeoutExpired none)).1.output_path.isSome
      = (GhostscriptStrategy.compress (fun _ => none) "in.pdf" "out.pdf" "screen"
        (GsRun.timeoutExpired none)).1.success) ∧
    ((GhostscriptStrategy.compress (fun _ => none) "in.pdf" "out.pdf" "screen"
        (GsRun.timeoutExpired none)).1.success = false →
      (GhostscriptStrategy.compress (fun _ => none) "in.pdf" "out.pdf" "screen"
        (GsRun.timeoutExpired none)).1.compressed_size = 0) :=
  (strategy_result_invariant (fun _ => none) "in.pdf" "out.pdf" "screen" "gs_output.pdf"
    (GsRun.timeoutExpired none) (PikeRun.raised "x" none)).1

/-!
## Parallel batch executor (`ParallelCompressor.compress_batch`, `executor.py`)

Each worker runs one full orchestrator pass; we abstract a worker as a
function from the task index to either its `CompressionOutcome` or the
exception that made `future.result()` raise.  The non-deterministic order
in which `as_completed` yields futures is abstracted as an arbitrary list
`order` of task indices; a run of the executor corresponds to `order`
being a permutation of `0, ..., len(tasks) - 1`.  `compress_batch` fills a
pre-sized slot list keyed by submission index, fires `on_complete` as each
result becomes available (the second component: the callback trace, each
entry tagged with its task index), and finally drops unfilled slots.
-/

/-- The synthesized error outcome built in the `except` branch of
`compress_batch`: `best_strategy = "error"`, `final_size = 0`, no
per-strategy results, original size read freshly from disk if the input
still exists, else 0. -/
def synthOutcome (input_path output_path : String) (fsExists : String → Bool)
    (fsSize : String → Nat) : CompressionOutcome :=
  { input_path := input_path, output_path := output_path,
    original_size := if fsExists input_path then fsSize input_path else 0,
    final_size := 0, best_strategy := "error", all_results := [] }

/-- The outcome recorded for task `i`: the worker's own result when
`future.result()` returns, else the synthesized error outcome for that
task's (input, output) pair. -/
def outcomeFor (tasks : List (String × String))
    (worker : Nat → Except String CompressionOutcome)
    (fsExists : String → Bool) (fsSize : String → Nat) (i : Nat) : CompressionOutcome :=
  match worker i with
  | Except.ok o => o
  | Except.error _ =>
    let t := tasks.getD i ("", "")
    synthOutcome t.1 t.2 fsExists fsSize

/-- `ParallelCompressor.compress_batch`: slots pre-sized to the number of
tasks, filled in completion order (`order`), callbacks fired as results
arrive; returns the non-empty slots in submission order together with the
callback trace. -/
def compress_batch (tasks : List (String × String))
    (worker : Nat → Except String CompressionOutcome) (order : List Nat)
    (fsExists : String → Bool) (fsSize : String → Nat) :
    List CompressionOutcome × List (Nat × CompressionOutcome) :=
  let final := order.foldl
    (fun (acc : List (Option CompressionOutcome) × List (Nat × CompressionOutcome)) i =>
      (acc.1.set i (some (outcomeFor tasks worker fsExists fsSize i)),
       acc.2 ++ [(i, outcomeFor tasks worker fsExists fsSize i)]))
    (List.replicate tasks.length none, [])
  (final.1.filterMap id, final.2)

theorem batch_foldl_split (f : Nat → CompressionOutcome) :
    ∀ (order : List Nat) (slots : List (Option CompressionOutcome))
      (trace : List (Nat × CompressionOutcome)),
      order.foldl
        (fun (acc : List (Option CompressionOutcome) × List (Nat × CompressionOutcome)) i =>
          (acc.1.set i (some (f i)), acc.2 ++ [(i, f i)]))
        (slots, trace) =
      (order.foldl (fun s i => s.set i (some (f i))) slots,
       trace ++ order.map (fun i => (i, f i))) := by
  intro order
  induction order with
  | nil => intro slots trace; simp
  | cons i rest ih =>
    intro slots trace
    simp only [List.foldl_cons, List.map_cons, ih]
    simp

theorem batch_foldl_set_length (f : Nat → CompressionOutcome) :
    ∀ (order : List Nat) (slots : List (Option CompressionOutcome)),
      (order.foldl (fun s i => s.set i (some (f i))) slots).length = slots.length := by
  intro order
  induction order with
  | nil => intro slots; rfl
  | cons i rest ih =>
    intro slots
    simp only [List.foldl_cons, ih, List.length_set]

theorem batch_foldl_set_getElem (f : Nat → CompressionOutcome) :
    ∀ (order : List Nat) (slots : List (Option CompressionOutcome)) (j : Nat),
      (order.foldl (fun s i => s.set i (some (f i))) slots)[j]? =
        if j ∈ order ∧ j < slots.length then some (some (f j)) else slots[j]? := by
  intro order
  induction order with
  | nil => intro slots j; simp
  | cons i rest ih =>
    intro slots j
    simp only [List.foldl_cons]
    rw [ih, List.length_set, List.getElem?_set]
    by_cases hm : j ∈ rest
    · by_cases hl : j < slots.length
      · simp [hm, hl]
      · have hnone : slots[j]? = none := List.getElem?_eq_none (le_of_not_lt hl)
        by_cases hij : i = j <;> simp [hm, hl, hij, hnone]
    · by_cases hij : i = j
      · subst hij
        by_cases hl : i < slots.length
        · simp [hm, hl, List.mem_cons]
        · have hnone : slots[i]? = none := List.getElem?_eq_none (le_of_not_lt hl)
          simp [hm, hl, hnone]
      · have hji : ¬j = i := fun h => hij h.symm
        simp [hm, hij, hji, List.mem_cons]

theorem compress_batch_outcomes_eq (tasks : List (String × String))
    (worker : Nat → Except String CompressionOutcome) (order : List Nat)
    (fsExists : String → Bool) (fsSize : String → Nat)
    (hperm : order.Perm (List.range tasks.length)) :
    (compress_batch tasks worker order fsExists fsSize).1 =
      (List.range tasks.length).map (outcomeFor tasks worker fsExists fsSize) := by
  have h1 : (compress_batch tasks worker order fsExists fsSize).1 =
      (order.foldl
        (fun s i => s.set i (some (outcomeFor tasks worker fsExists fsSize i)))
        (List.replicate tasks.length none)).filterMap id := by
    simp only [compress_batch, batch_foldl_split]
  have hslots : order.foldl
      (fun s i => s.set i (some (outcomeFor tasks worker fsExists fsSize i)))
      (List.replicate tasks.length none) =
      (List.range tasks.length).map
        (fun j => some (outcomeFor tasks worker fsExists fsSize j)) := by
    apply List.ext_getElem?
    intro j
    rw [batch_foldl_set_getElem]
    by_cases hj : j < tasks.length
    · have hmem : j ∈ order := hperm.mem_iff.mpr (List.mem_range.mpr hj)
      simp [hmem, hj, List.getElem?_range hj]
    · have hnm : j ∉ order := fun hmem => hj (List.mem_range.mp (hperm.mem_iff.mp hmem))
      have h1 : (List.replicate tasks.length (none : Option CompressionOutcome))[j]? = none :=
        List.getElem?_eq_none (by simpa using le_of_not_lt hj)
      have h2 : ((List.range tasks.length).map
          (fun j => some (outcomeFor tasks worker fsExists fsSize j)))[j]? = none :=
        List.getElem?_eq_none (by simpa using le_of_not_lt hj)
      simp [hnm, h1, h2]
  have hcollapse : ∀ (f : Nat → CompressionOutcome) (l : List Nat),
      (l.map (fun j => some (f j))).filterMap id = l.map f := by
    intro f l
    induction l with
    | nil => rfl
    | cons x xs ih => simp [ih]
  rw [h1, hslots, hcollapse]

/-- C2: when every submitted index completes exactly once (any completion
order), `compress_batch` returns exactly one outcome per task, in original
submission order; a task whose worker raises gets the synthesized outcome
(`best_strategy = "error"`, `final_size = 0`, empty results, original size
from disk if the input still exists, else 0) for its own (input, output)
pair, and each task's outcome depends only on its own worker behaviour. -/
theorem compress_batch_ordered_complete (tasks : List (String × String))
    (worker : Nat → Except String CompressionOutcome) (order : List Nat)
    (fsExists : String → Bool) (fsSize : String → Nat)
    (hperm : order.Perm (List.range tasks.length)) :
    (compress_batch tasks worker order fsExists fsSize).1.length = tasks.length ∧
    (∀ i, i < tasks.length →
      (compress_batch tasks worker order fsExists fsSize).1[i]? =
        some (outcomeFor tasks worker fsExists fsSize i)) ∧
    (∀ i e, worker i = Except.error e →
      (outcomeFor tasks worker fsExists fsSize i).best_strategy = "error" ∧
      (outcomeFor tasks worker fsExists fsSize i).final_size = 0 ∧
      (outcomeFor tasks worker fsExists fsSize i).all_results = [] ∧
      (outcomeFor tasks worker fsExists fsSize i).original_size =
        (if fsExists (tasks.getD i ("", "")).1 then fsSize (tasks.getD i ("", "")).1 else 0) ∧
      (outcomeFor tasks worker fsExists fsSize i).input_path = (tasks.getD i ("", "")).1 ∧
      (outcomeFor tasks worker fsExists fsSize i).output_path = (tasks.getD i ("", "")).2) ∧
    (∀ (worker' : Nat → Except String CompressionOutcome) (j : Nat),
      worker j = worker' j →
      outcomeFor tasks worker fsExists fsSize j = outcomeFor tasks worker' fsExists fsSize j) := by
  have heq := compress_batch_outcomes_eq tasks worker order fsExists fsSize hperm
  refine ⟨?_, ?_, ?_, ?_⟩
  · rw [heq, List.length_map, List.length_range]
  · intro i hi
    rw [heq, List.getElem?_map, List.getElem?_range hi]
    rfl
  · intro i e herr
    simp [outcomeFor, herr, synthOutcome]
  · intro worker' j hsame
    simp [outcomeFor, hsame]

/-- C5: with every submitted index completing exactly once, the
`on_complete` trace is exactly one event per task — fired at the moment
that task's (real or synthesized) result becomes available — listed in
completion order (`order`), not submission order. -/
theorem on_complete_once_per_task (tasks : List (String × String))
    (worker : Nat → Except String CompressionOutcome) (order : List Nat)
    (fsExists : String → Bool) (fsSize : String → Nat)
    (hperm : order.Perm (List.range tasks.length)) :
    (compress_batch tasks worker order fsExists fsSize).2 =
      order.map (fun i => (i, outcomeFor tasks worker fsExists fsSize i)) ∧
    ((compress_batch tasks worker order fsExists fsSize).2.map Prod.fst = order) ∧
    (∀ i, i < tasks.length →
      ((compress_batch tasks worker order fsExists fsSize).2.map Prod.fst).count i = 1) := by
  have htrace : (compress_batch tasks worker order fsExists fsSize).2 =
      order.map (fun i => (i, outcomeFor tasks worker fsExists fsSize i)) := by
    simp only [compress_batch, batch_foldl_split, List.nil_append]
  have hfst : (compress_batch tasks worker order fsExists fsSize).2.map Prod.fst = order := by
    rw [htrace, List.map_map]
    have hid : (Prod.fst ∘ fun i => (i, outcomeFor tasks worker fsExists fsSize i)) = id := rfl
    rw [hid, List.map_id]
  refine ⟨htrace, hfst, ?_⟩
  intro i hi
  rw [hfst]
  have hnodup : order.Nodup := hperm.symm.nodup (List.nodup_range tasks.length)
  have hmem : i ∈ order := hperm.mem_iff.mpr (List.mem_range.mpr hi)
  exact List.count_eq_one_of_mem hnodup hmem

/-- Two-element task list for the batch witnesses. -/
def tasksW : List (String × String) := [("a.pdf", "a.out.pdf"), ("b.pdf", "b.out.pdf")]

/-- Worker behaviour for the batch witnesses: task 0 succeeds, task 1's
worker crashes. -/
def workerW : Nat → Except String CompressionOutcome := fun i =>
  if i = 0 then Except.ok ⟨"a.pdf", "a.out.pdf", 10, 5, "pikepdf", []⟩
  else Except.error "worker crashed"

/-- Witness for C2: two tasks completing in reverse order still give two
outcomes in submission order, and the crashed task's outcome is the
synthesized error outcome. -/
theorem compress_batch_ordered_complete_witness :
    (compress_batch tasksW workerW [1, 0] (fun p => p == "b.pdf") (fun _ => 7)).1.length = 2 ∧
    (outcomeFor tasksW workerW (fun p => p == "b.pdf") (fun _ => 7) 1).best_strategy
      = "error" :=
  ⟨(compress_batch_ordered_complete tasksW workerW [1, 0]
      (fun p => p == "b.pdf") (fun _ => 7) (by decide)).1,
   ((compress_batch_ordered_complete tasksW workerW [1, 0]
      (fun p => p == "b.pdf") (fun _ => 7) (by decide)).2.2.1 1 "worker crashed" rfl).1⟩

/-- Witness for C5: with completion order [1, 0] each of the two tasks
fires its callback exactly once and the callback stream follows the
completion order. -/
theorem on_complete_once_per_task_witness :
    ((compress_batch tasksW workerW [1, 0] (fun p => p == "b.pdf") (fun _ => 7)).2.map
        Prod.fst = [1, 0]) ∧
    ((compress_batch tasksW workerW [1, 0] (fun p => p == "b.pdf") (fun _ => 7)).2.map
        Prod.fst).count 1 = 1 :=
  ⟨(on_complete_once_per_task tasksW workerW [1, 0]
      (fun p => p == "b.pdf") (fun _ => 7) (by decide)).2.1,
   (on_complete_once_per_task tasksW workerW [1, 0]
      (fun p => p == "b.pdf") (fun _ => 7) (by decide)).2.2 1 (by decide)⟩
